import Mathlib

/-!
Verification of `LadderButtonConfig` from `src/ace_button/LadderButtonConfig.h`.

The class classifies a raw analog sample against a table of
threshold/tolerance windows and answers, for a requested virtual pin,
whether that encoded button is currently pressed or released.

Modelling conventions:
* `uint16_t` / `uint8_t` fields are carried as `Nat`; the 8-bit bounds
  (`mabSize ≤ 255`, truncation of `virtualPin = i + 1` to `uint8_t`) are made
  explicit with `% 256` and hypotheses where they matter.
* The C++ expression
  `sa < mab[i].threshold - mab[i].tolerance || sa > mab[i].threshold + mab[i].tolerance`
  is evaluated after integer promotion to `int` (at least 32 bits wide on the
  targets considered), hence in signed arithmetic that cannot wrap; it is
  modelled on `Int`.
* `analogRead(mPinA)` is the platform's opaque sampling primitive; the sample
  `sa` it returns is passed to `readButton` as an explicit argument.
* The member table pointer `mab` plus its element count `mabSize` are modelled
  together as a `List`, whose length plays the role of `mabSize`.
-/

namespace AceButton

/-- One entry of the analog button table (`AnalogButtons_t`):
`threshold` is a `uint16_t`, `tolerance` and `id` are `uint8_t`. -/
structure AnalogButtons_t where
  threshold : Nat
  tolerance : Nat
  id : Nat
deriving Repr, DecidableEq

/-- The skip condition of the scan loop in `readButton`:
`(sa < mab[i].threshold - mab[i].tolerance) || (sa > mab[i].threshold + mab[i].tolerance)`,
evaluated in promoted signed arithmetic. `true` means the sample lies strictly
outside the entry's tolerance window. -/
def outsideWindow (b : AnalogButtons_t) (sa : Int) : Bool :=
  decide (sa < (b.threshold : Int) - (b.tolerance : Int)) ||
  decide (sa > (b.threshold : Int) + (b.tolerance : Int))

/-- The `while` loop of `readButton`: starting at `i = 0`, increment `i` while
`i < mabSize` and entry `i` is outside the window; the result is the final
value of `i` (the first matching index, or the table length when no entry
matches). -/
def scanTable (mab : List AnalogButtons_t) (sa : Int) : Nat :=
  match mab with
  | [] => 0
  | b :: rest => if outsideWindow b sa then scanTable rest sa + 1 else 0

/-- The constructor-supplied state of `LadderButtonConfig` that `readButton`
reads: the analog pin `mPinA`, the table `mab` (with `mabSize = mab.length`),
and the derived `mPressedState`. -/
structure LadderButtonConfig where
  mPinA : Nat
  mab : List AnalogButtons_t
  mPressedState : Nat
deriving Repr, DecidableEq

/-- The `LadderButtonConfig` constructor: stores the pin and the table and
computes `mPressedState = defaultReleasedState ^ 0x1` once. -/
def makeLadderButtonConfig (pinA : Nat) (ab : List AnalogButtons_t)
    (defaultReleasedState : Nat) : LadderButtonConfig :=
  ⟨pinA, ab, defaultReleasedState ^^^ 1⟩

/-- `LadderButtonConfig::readButton(pin)`, with the sample `sa` returned by
`analogRead(mPinA)` made explicit.  After the scan loop: if `i == mabSize`
return `mPressedState ^ 0x1`; otherwise `virtualPin = i + 1` truncated to
`uint8_t`, and the result is `mPressedState` when `virtualPin == pin`, else
`mPressedState ^ 0x1`. -/
def readButton (cfg : LadderButtonConfig) (sa : Int) (pin : Nat) : Nat :=
  if scanTable cfg.mab sa = cfg.mab.length then cfg.mPressedState ^^^ 1
  else if (scanTable cfg.mab sa + 1) % 256 = pin then cfg.mPressedState
  else cfg.mPressedState ^^^ 1

/-! ### Helper lemmas about the scan loop -/

theorem xor_one_xor_one (r : Nat) : (r ^^^ 1) ^^^ 1 = r := by
  simp [Nat.xor_assoc]

theorem scanTable_le_length (mab : List AnalogButtons_t) (sa : Int) :
    scanTable mab sa ≤ mab.length := by
  induction mab with
  | nil => simp [scanTable]
  | cons b rest ih =>
    simp only [scanTable, List.length_cons]
    split
    · omega
    · omega

theorem scanTable_eq_length_of_no_match (mab : List AnalogButtons_t) (sa : Int)
    (h : ∀ b ∈ mab, outsideWindow b sa = true) :
    scanTable mab sa = mab.length := by
  induction mab with
  | nil => simp [scanTable]
  | cons b rest ih =>
    have hb : outsideWindow b sa = true := h b (List.mem_cons_self b rest)
    have hrest : scanTable rest sa = rest.length :=
      ih (fun x hx => h x (List.mem_cons_of_mem b hx))
    simp [scanTable, hb, hrest]

theorem scanTable_eq_first_match (mab : List AnalogButtons_t) (sa : Int)
    (k : Nat) (hk : k < mab.length)
    (hmatch : outsideWindow (mab.get ⟨k, hk⟩) sa = false)
    (hfirst : ∀ j (hj : j < mab.length), j < k →
      outsideWindow (mab.get ⟨j, hj⟩) sa = true) :
    scanTable mab sa = k := by
  induction mab generalizing k with
  | nil => simp at hk
  | cons b rest ih =>
    cases k with
    | zero =>
      have hb : outsideWindow b sa = false := hmatch
      simp [scanTable, hb]
    | succ k' =>
      have hb : outsideWindow b sa = true := hfirst 0 (by omega) (by omega)
      have hk' : k' < rest.length := by
        simpa using Nat.lt_of_succ_lt_succ hk
      have hmatch' : outsideWindow (rest.get ⟨k', hk'⟩) sa = false := hmatch
      have hfirst' : ∀ j (hj : j < rest.length), j < k' →
          outsideWindow (rest.get ⟨j, hj⟩) sa = true := by
        intro j hj hjk
        exact hfirst (j + 1) (by simpa using Nat.succ_lt_succ hj) (by omega)
      simp [scanTable, hb, ih k' hk' hmatch' hfirst']

/-- The inclusive tolerance window of an entry, as the spec words it:
`threshold(e) - tolerance(e) <= s <= threshold(e) + tolerance(e)`. -/
def inWindow (b : AnalogButtons_t) (sa : Int) : Prop :=
  (b.threshold : Int) - (b.tolerance : Int) ≤ sa ∧
  sa ≤ (b.threshold : Int) + (b.tolerance : Int)

instance (b : AnalogButtons_t) (sa : Int) : Decidable (inWindow b sa) := by
  unfold inWindow
  exact inferInstance

theorem outsideWindow_false_iff (b : AnalogButtons_t) (sa : Int) :
    outsideWindow b sa = false ↔ inWindow b sa := by
  simp only [outsideWindow, inWindow, Bool.or_eq_false_iff, decide_eq_false_iff_not]
  omega

theorem outsideWindow_true_iff (b : AnalogButtons_t) (sa : Int) :
    outsideWindow b sa = true ↔ ¬ inWindow b sa := by
  rw [← outsideWindow_false_iff]
  cases h : outsideWindow b sa <;> simp

/-! ### Claims -/

/-- C1: if the sample falls in the tolerance window of the entry at table
index `k` (0-based) and in no earlier entry's window, then `readButton (k+1)`
returns `pressedLevel` and `readButton p` returns `releasedLevel` for every
`p ≠ k + 1`; the stored `id` field plays no role. -/
theorem readButton_first_match_classifies (pinA r : Nat)
    (mab : List AnalogButtons_t) (sa : Int) (k : Nat)
    (hk : k < mab.length) (hlen : mab.length ≤ 255)
    (hmatch : inWindow (mab.get ⟨k, hk⟩) sa)
    (hfirst : ∀ j (hj : j < mab.length), j < k →
      ¬ inWindow (mab.get ⟨j, hj⟩) sa)
    (p : Nat) :
    readButton (makeLadderButtonConfig pinA mab r) sa (k + 1) = r ^^^ 1 ∧
    (p ≠ k + 1 → readButton (makeLadderButtonConfig pinA mab r) sa p = r) := by
  have hscan : scanTable mab sa = k :=
    scanTable_eq_first_match mab sa k hk
      ((outsideWindow_false_iff _ _).mpr hmatch)
      (fun j hj hjk => (outsideWindow_true_iff _ _).mpr (hfirst j hj hjk))
  have hne : ¬ (k = mab.length) := by omega
  have hmod : (k + 1) % 256 = k + 1 := Nat.mod_eq_of_lt (by omega)
  constructor
  · simp [readButton, makeLadderButtonConfig, hscan, hne, hmod]
  · intro hp
    have hcond : ¬ ((k + 1) % 256 = p) := by
      rw [hmod]
      omega
    simp [readButton, makeLadderButtonConfig, hscan, hne, hcond, xor_one_xor_one]

/-- C1 witness: table `[{100,10,5}, {500,10,9}]`, released level `1` (HIGH),
sample `105` matches index `0`; `readButton 1` is pressed (`0`) and
`readButton 2` is released (`1`). -/
theorem readButton_first_match_classifies_witness :
    readButton (makeLadderButtonConfig 0 [⟨100, 10, 5⟩, ⟨500, 10, 9⟩] 1) 105 1 = 0 ∧
    readButton (makeLadderButtonConfig 0 [⟨100, 10, 5⟩, ⟨500, 10, 9⟩] 1) 105 2 = 1 := by
  have h := readButton_first_match_classifies 0 1 [⟨100, 10, 5⟩, ⟨500, 10, 9⟩]
    105 0 (by decide) (by decide) (by decide)
    (fun j hj hjk => absurd hjk (Nat.not_lt_zero j)) 2
  exact ⟨h.1.trans (by decide), h.2 (by decide)⟩

/-- C2: for every sample strictly outside every entry's window,
`readButton pin` returns `releasedLevel` for every requested pin;
the operation is total and returns a value on every input. -/
theorem readButton_no_match_released (pinA r : Nat)
    (mab : List AnalogButtons_t) (sa : Int) (pin : Nat)
    (h : ∀ b ∈ mab, sa < (b.threshold : Int) - (b.tolerance : Int) ∨
      (b.threshold : Int) + (b.tolerance : Int) < sa) :
    readButton (makeLadderButtonConfig pinA mab r) sa pin = r := by
  have hall : ∀ b ∈ mab, outsideWindow b sa = true := by
    intro b hb
    rcases h b hb with h1 | h1 <;> simp [outsideWindow] <;> omega
  have hscan := scanTable_eq_length_of_no_match mab sa hall
  simp [readButton, makeLadderButtonConfig, hscan, xor_one_xor_one]

/-- C2 witness: sample `300` is strictly outside both windows of
`[{100,10,5}, {500,10,9}]`; `readButton 1` returns released (`1`). -/
theorem readButton_no_match_released_witness :
    readButton (makeLadderButtonConfig 0 [⟨100, 10, 5⟩, ⟨500, 10, 9⟩] 1) 300 1 = 1 :=
  readButton_no_match_released 0 1 [⟨100, 10, 5⟩, ⟨500, 10, 9⟩] 300 1 (by decide)

/-- C3: a sample exactly at `threshold - tolerance` or `threshold + tolerance`
counts as a match: the non-match condition `outsideWindow` (written with
strict inequalities in the source) is `false` there, equivalently the
inclusive window `inWindow` contains both boundary values. -/
theorem boundary_samples_match (b : AnalogButtons_t) :
    outsideWindow b ((b.threshold : Int) - (b.tolerance : Int)) = false ∧
    outsideWindow b ((b.threshold : Int) + (b.tolerance : Int)) = false ∧
    inWindow b ((b.threshold : Int) - (b.tolerance : Int)) ∧
    inWindow b ((b.threshold : Int) + (b.tolerance : Int)) := by
  refine ⟨?_, ?_, ?_, ?_⟩ <;> simp [outsideWindow, inWindow] <;> omega

/-- C4: `readButton 0` returns `releasedLevel` for every table of at most 255
entries and every sample: a match at index `i` yields virtual pin
`i + 1 ≥ 1`, and since `i < mabSize ≤ 255` the `uint8_t` value `i + 1`
cannot wrap to `0`. -/
theorem readButton_pin_zero_released (pinA r : Nat)
    (mab : List AnalogButtons_t) (sa : Int) (hlen : mab.length ≤ 255) :
    readButton (makeLadderButtonConfig pinA mab r) sa 0 = r := by
  rcases Nat.eq_or_lt_of_le (scanTable_le_length mab sa) with h | h
  · simp [readButton, makeLadderButtonConfig, h, xor_one_xor_one]
  · have hne : ¬ (scanTable mab sa = mab.length) := by omega
    have hcond : ¬ ((scanTable mab sa + 1) % 256 = 0) := by
      rw [Nat.mod_eq_of_lt (by omega)]
      omega
    simp [readButton, makeLadderButtonConfig, hne, hcond, xor_one_xor_one]

/-- C4 witness: sample `105` matches index `0` of `[{100,10,5}]`, yet
`readButton 0` still returns released (`1`). -/
theorem readButton_pin_zero_released_witness :
    readButton (makeLadderButtonConfig 0 [⟨100, 10, 5⟩] 1) 105 0 = 1 :=
  readButton_pin_zero_released 0 1 [⟨100, 10, 5⟩] 105 (by decide)

/-- C5: the lower window bound `threshold - tolerance` is computed in signed
promoted arithmetic and does not wrap below zero when `tolerance > threshold`;
consequently every nonnegative sample `sa ≤ threshold + tolerance` matches
such an entry's window. -/
theorem low_threshold_no_underflow (b : AnalogButtons_t) (sa : Int)
    (hb : b.threshold < b.tolerance) (h0 : 0 ≤ sa)
    (hhi : sa ≤ (b.threshold : Int) + (b.tolerance : Int)) :
    (b.threshold : Int) - (b.tolerance : Int) < 0 ∧
    outsideWindow b sa = false := by
  constructor
  · omega
  · rw [outsideWindow_false_iff]
    exact ⟨by omega, hhi⟩

/-- C5 witness: entry `{5, 20, 1}` has `tolerance > threshold`; sample `0`
matches its window. -/
theorem low_threshold_no_underflow_witness :
    (5 : Int) - 20 < 0 ∧ outsideWindow ⟨5, 20, 1⟩ 0 = false := by
  have h := low_threshold_no_underflow ⟨5, 20, 1⟩ 0 (by decide) (by decide) (by decide)
  exact ⟨by decide, h.2⟩

/-- C6: the constructor derives `mPressedState = defaultReleasedState ^ 0x1`
once; and constructing with `releasedLevel = LOW (0)` returns, for identical
table and sample, the bitwise-XOR-1 flip of the result of a classifier
constructed with `releasedLevel = HIGH (1)`. -/
theorem polarity_derivation_and_inversion (pinA : Nat)
    (mab : List AnalogButtons_t) (sa : Int) (pin : Nat) :
    (∀ r : Nat, (makeLadderButtonConfig pinA mab r).mPressedState = r ^^^ 1) ∧
    readButton (makeLadderButtonConfig pinA mab 0) sa pin =
      readButton (makeLadderButtonConfig pinA mab 1) sa pin ^^^ 1 := by
  constructor
  · intro r
    rfl
  · simp only [readButton, makeLadderButtonConfig]
    split
    · decide
    · split <;> decide

/-- Elements of two lists agree below the length of a common prefix. -/
theorem get_eq_of_take_eq {l1 l2 : List AnalogButtons_t} (n : Nat)
    (h : l1.take n = l2.take n) :
    ∀ j (h1 : j < l1.length) (h2 : j < l2.length), j < n →
      l1.get ⟨j, h1⟩ = l2.get ⟨j, h2⟩ := by
  induction l1 generalizing l2 n with
  | nil =>
    intro j h1
    simp at h1
  | cons a l1 ih =>
    intro j h1 h2 hjn
    cases l2 with
    | nil => simp at h2
    | cons b l2 =>
      cases n with
      | zero => omega
      | succ n =>
        simp only [List.take_succ_cons, List.cons.injEq] at h
        cases j with
        | zero => simpa using h.1
        | succ j =>
          exact ih n h.2 j (by simpa using h1) (by simpa using h2) (by omega)

/-- C7: when a sample lies in several entries' windows, the verdict is
determined solely by the smallest matching table index: two tables agreeing
up to and including the first matching entry produce identical `readButton`
results for every pin, whatever their later entries hold. -/
theorem first_match_wins (pinA r : Nat) (mab1 mab2 : List AnalogButtons_t)
    (sa : Int) (k : Nat) (hk1 : k < mab1.length) (hk2 : k < mab2.length)
    (hpre : mab1.take (k + 1) = mab2.take (k + 1))
    (hmatch : inWindow (mab1.get ⟨k, hk1⟩) sa)
    (hfirst : ∀ j (hj : j < mab1.length), j < k →
      ¬ inWindow (mab1.get ⟨j, hj⟩) sa)
    (pin : Nat) :
    readButton (makeLadderButtonConfig pinA mab1 r) sa pin =
    readButton (makeLadderButtonConfig pinA mab2 r) sa pin := by
  have hmatch2 : inWindow (mab2.get ⟨k, hk2⟩) sa := by
    rw [← get_eq_of_take_eq (k + 1) hpre k hk1 hk2 (by omega)]
    exact hmatch
  have hfirst2 : ∀ j (hj : j < mab2.length), j < k →
      ¬ inWindow (mab2.get ⟨j, hj⟩) sa := by
    intro j hj hjk
    rw [← get_eq_of_take_eq (k + 1) hpre j (by omega) hj (by omega)]
    exact hfirst j (by omega) hjk
  have hscan1 : scanTable mab1 sa = k :=
    scanTable_eq_first_match mab1 sa k hk1
      ((outsideWindow_false_iff _ _).mpr hmatch)
      (fun j hj hjk => (outsideWindow_true_iff _ _).mpr (hfirst j hj hjk))
  have hscan2 : scanTable mab2 sa = k :=
    scanTable_eq_first_match mab2 sa k hk2
      ((outsideWindow_false_iff _ _).mpr hmatch2)
      (fun j hj hjk => (outsideWindow_true_iff _ _).mpr (hfirst2 j hj hjk))
  have hne1 : ¬ (k = mab1.length) := by omega
  have hne2 : ¬ (k = mab2.length) := by omega
  simp [readButton, makeLadderButtonConfig, hscan1, hscan2, hne1, hne2]

/-- C7 witness: `[{100,10,5}, {500,10,9}]` and `[{100,10,5}, {100,10,3}]`
agree on their first entries; sample `105` also lies in the second table's
overlapping later window, yet both classify every pin identically. -/
theorem first_match_wins_witness :
    readButton (makeLadderButtonConfig 0 [⟨100, 10, 5⟩, ⟨500, 10, 9⟩] 1) 105 2 =
    readButton (makeLadderButtonConfig 0 [⟨100, 10, 5⟩, ⟨100, 10, 3⟩] 1) 105 2 :=
  first_match_wins 0 1 [⟨100, 10, 5⟩, ⟨500, 10, 9⟩] [⟨100, 10, 5⟩, ⟨100, 10, 3⟩]
    105 0 (by decide) (by decide) (by decide) (by decide)
    (fun j hj hjk => absurd hjk (Nat.not_lt_zero j)) 2

/-- C8: `readButton` is a pure function of the analog sample, the requested
pin, the table and the constructor-derived polarity: two configurations
agreeing on table and polarity (even with different analog pins) answer every
query identically, so repeated calls with an unchanged sample agree. -/
theorem readButton_deterministic (cfg1 cfg2 : LadderButtonConfig)
    (sa : Int) (pin : Nat)
    (htab : cfg1.mab = cfg2.mab)
    (hpol : cfg1.mPressedState = cfg2.mPressedState) :
    readButton cfg1 sa pin = readButton cfg2 sa pin := by
  unfold readButton
  rw [htab, hpol]

/-- C8 witness: two configurations differing only in `mPinA` agree on a
concrete query. -/
theorem readButton_deterministic_witness :
    readButton ⟨0, [⟨100, 10, 5⟩], 0⟩ 100 1 = readButton ⟨7, [⟨100, 10, 5⟩], 0⟩ 100 1 :=
  readButton_deterministic ⟨0, [⟨100, 10, 5⟩], 0⟩ ⟨7, [⟨100, 10, 5⟩], 0⟩ 100 1 rfl rfl

/-- The scan loop reads only `threshold` and `tolerance` of each entry. -/
theorem scanTable_ignores_id (l1 l2 : List AnalogButtons_t) (sa : Int)
    (h : l1.map (fun b => (b.threshold, b.tolerance)) =
         l2.map (fun b => (b.threshold, b.tolerance))) :
    scanTable l1 sa = scanTable l2 sa := by
  induction l1 generalizing l2 with
  | nil =>
    cases l2 with
    | nil => rfl
    | cons b l2 => simp at h
  | cons a l1 ih =>
    cases l2 with
    | nil => simp at h
    | cons b l2 =>
      simp only [List.map_cons, List.cons.injEq, Prod.mk.injEq] at h
      have hw : outsideWindow a sa = outsideWindow b sa := by
        unfold outsideWindow
        rw [h.1.1, h.1.2]
      simp [scanTable, hw, ih l2 h.2]

/-- C9: for two tables identical except in the `id` fields of their entries,
`readButton` returns the same result for every sample, pin and released
level: the encoder strategy never reads the stored `id`. -/
theorem readButton_ignores_id (pinA r : Nat)
    (mab1 mab2 : List AnalogButtons_t) (sa : Int) (pin : Nat)
    (h : mab1.map (fun b => (b.threshold, b.tolerance)) =
         mab2.map (fun b => (b.threshold, b.tolerance))) :
    readButton (makeLadderButtonConfig pinA mab1 r) sa pin =
    readButton (makeLadderButtonConfig pinA mab2 r) sa pin := by
  have hscan := scanTable_ignores_id mab1 mab2 sa h
  have hlen : mab1.length = mab2.length := by
    have := congrArg List.length h
    simpa using this
  simp [readButton, makeLadderButtonConfig, hscan, hlen]

/-- C9 witness: tables `[{100,10,5}]` and `[{100,10,77}]` differ only in
`id` and classify a concrete query identically. -/
theorem readButton_ignores_id_witness :
    readButton (makeLadderButtonConfig 0 [⟨100, 10, 5⟩] 1) 100 1 =
    readButton (makeLadderButtonConfig 0 [⟨100, 10, 77⟩] 1) 100 1 :=
  readButton_ignores_id 0 1 [⟨100, 10, 5⟩] [⟨100, 10, 77⟩] 100 1 rfl

/-- C10: with an empty table (`mabSize = 0`) the scan loop exits at once and
`readButton pin` returns `releasedLevel` for every pin and every sample. -/
theorem readButton_empty_table (pinA r : Nat) (sa : Int) (pin : Nat) :
    readButton (makeLadderButtonConfig pinA [] r) sa pin = r := by
  simp [readButton, makeLadderButtonConfig, scanTable, xor_one_xor_one]

end AceButton
